import Mathlib

/-!
Verification of the `mlly` module-resolution and evaluation library
(`src/lib/index.mjs`) against its natural-language specification.

The JavaScript code is shallowly embedded: every function of the repository
is translated to a Lean definition of the same name.  Node.js primitives that
the repository merely calls (`moduleResolve` from `import-meta-resolve`,
`realpathSync`, `pathToFileURL`, node's `fileURLToPath`, `fsp.readFile`,
dynamic `import`, `builtinModules`, `process.cwd`) are collected in a `Host`
structure and passed explicitly.  Synchronous functions that can throw are
modelled as `Except JsError α`; `async` functions, which in JS always return a
promise and surface failures as rejections, are likewise modelled as
`Except JsError α` describing the settled state of the returned promise.

The code builds JavaScript regular expressions dynamically from data
(`new RegExp(...)` over import specifiers and data URLs).  JS regex matching
is modelled by a small engine (`RAtom`, `matchAtoms`, `replaceScan`): plain
characters match literally, `.` matches any character, and `+` makes the
preceding literal match one-or-more times with greedy backtracking; the
other JS metacharacters are outside the modelled fragment, so every theorem
about patterns interpolated from non-constant data carries a hypothesis
excluding them (`JS_REGEX_METACHARS`).  Global `String.replace` is modelled
as a left-to-right scan replacing leftmost non-overlapping matches,
alternatives tried in order; a replacement *string* is processed through the
JS `$`-patterns (`jsReplTemplate`), while a replacement callback receives
the matched text verbatim.
-/

namespace Mlly

/-- A JavaScript `Error` value as observed by this library: its `message`,
its optional `code` property, and its `stack` string. -/
structure JsError where
  message : String
  code : Option String
  stack : String
deriving DecidableEq, Repr

/-- A module namespace object returned by dynamic `import` (opaque here). -/
abbrev Namespace := String

/-- The Node.js primitives used by `src/lib/index.mjs`, passed explicitly:
`moduleResolve` (the host resolution algorithm, taking specifier, base URL and
conditions), `realpathSync`, `pathToFileURL` (total: returns the URL string),
node's own `fileURLToPath` (`_fileURLToPath` in the source), dynamic
`import()`, `fsp.readFile`, `builtinModules`, and `pathToFileURL(process.cwd())`
(the module-level constant `DEFAULT_URL`). -/
structure Host where
  builtinModules : List String
  cwdURL : String
  moduleResolve : String → String → List String → Except JsError String
  realpathSync : String → Except JsError String
  pathToFileURL : String → String
  nodeFileURLToPath : String → Except JsError String
  dynImport : String → Except JsError Namespace
  readFile : String → Except JsError String

-- ## String helpers (models of the JS string operations used by the source)

/-- Predicate `charsStartWith s p`: the character list `p` is a prefix of `s`. -/
def charsStartWith : List Char → List Char → Bool
  | _, [] => true
  | [], _ :: _ => false
  | c :: cs, p :: ps => c = p && charsStartWith cs ps

/-- Predicate `charsHaveSub s p`: the character list `p` occurs contiguously in `s`. -/
def charsHaveSub : List Char → List Char → Bool
  | [], p => p.isEmpty
  | c :: cs, p => charsStartWith (c :: cs) p || charsHaveSub cs p

/-- Model of JS `s.startsWith(p)`. -/
def strStartsWith (s p : String) : Bool :=
  charsStartWith s.data p.data

/-- Model of JS `s.endsWith(p)`. -/
def strEndsWith (s p : String) : Bool :=
  charsStartWith s.data.reverse p.data.reverse

/-- Model of JS `s.includes(p)` / an unanchored regex literal test. -/
def strContains (s p : String) : Bool :=
  charsHaveSub s.data p.data

/-- Test that `s` contains at least one of the substrings in `pats`. -/
def strContainsAny (s : String) (pats : List String) : Bool :=
  pats.any (fun p => strContains s p)

/-- Model of JS `new Set(list)` turned back into a list: keeps the first
occurrence of each element, preserving insertion order. -/
def jsSetList (l : List String) : List String :=
  l.foldl (fun acc x => if acc.contains x then acc else acc ++ [x]) []

/-- JS truthiness of an optional string (`undefined` and `""` are falsy). -/
def jsOptTruthy : Option String → Bool
  | none => false
  | some s => s ≠ ""

/-- Function `normalizeSlash` (source line 243): replace every backslash by `/`. -/
def normalizeSlash (s : String) : String :=
  String.mk (s.data.map (fun c => if c = '\\' then '/' else c))

-- ## Module-level constants of the source (lines 28-32)

/-- Constant `DEFAULT_CONDITIONS_SET = new Set(['node', 'import'])` (line 28). -/
def DEFAULT_CONDITIONS : List String := ["node", "import"]

/-- Constant `DEFAULT_EXTENSIONS = ['.mjs', '.cjs', '.js', '.json']` (line 31). -/
def DEFAULT_EXTENSIONS : List String := [".mjs", ".cjs", ".js", ".json"]

/-- Constant `NOT_FOUND_ERRORS` (line 32): the error codes treated as a soft miss. -/
def NOT_FOUND_ERRORS : List String :=
  ["ERR_MODULE_NOT_FOUND", "ERR_UNSUPPORTED_DIR_IMPORT", "MODULE_NOT_FOUND"]

/-- The substrings whose presence makes `/(node|data|http|https):/` (line 49)
match.  The regex is unanchored, so `.test(id)` is exactly "id contains one of
these five-or-six character substrings" (the alternation `http|https` followed
by `:` matches at `http:` or `https:`). -/
def RESOLVE_PROTOCOLS : List String := ["node:", "data:", "http:", "https:"]

/-- Same for `/(node|data|http|https|file):/` in `normalizeid` (line 224). -/
def NORMALIZE_PROTOCOLS : List String :=
  ["node:", "data:", "http:", "https:", "file:"]

-- ## Resolver (source lines 34-108)

/-- Options object threaded through the public API: `url`, `conditions`,
`extensions` (each possibly `undefined`). -/
structure MllyOpts where
  url : Option String := none
  conditions : Option (List String) := none
  extensions : Option (List String) := none
deriving DecidableEq

/-- Function `fileURLToPath` as exported by the repository (lines 213-218): a string
not starting with `file://` is only slash-normalized; otherwise node's
`fileURLToPath` is applied and the result slash-normalized. -/
def fileURLToPath (h : Host) (id : String) : Except JsError String :=
  if strStartsWith id "file://" = false then
    .ok (normalizeSlash id)
  else
    (h.nodeFileURLToPath id).map normalizeSlash

/-- Function `normalizeid` (lines 220-231): a string containing a protocol marker is
returned unchanged; a builtin module name gets the `node:` qualifier; any
other string is slash-normalized and prefixed with `file://`. -/
def normalizeid (h : Host) (id : String) : String :=
  if strContainsAny id NORMALIZE_PROTOCOLS then id
  else if h.builtinModules.contains id then "node:" ++ id
  else "file://" ++ normalizeSlash id

/-- Function `_tryModuleResolve` (lines 34-43): call the host resolution; an error
whose `code` is in `NOT_FOUND_ERRORS` becomes `null` (a soft miss), any other
error is rethrown. -/
def _tryModuleResolve (h : Host) (id url : String) (conditions : List String) :
    Except JsError (Option String) :=
  match h.moduleResolve id url conditions with
  | .ok r => .ok (some r)
  | .error e =>
    match e.code with
    | some c => if NOT_FOUND_ERRORS.contains c then .ok none else .error e
    | none => .error e

/-- The conditions set actually passed to the host (line 59):
`opts.conditions ? new Set(opts.conditions) : DEFAULT_CONDITIONS_SET`
(a JS array is always truthy). -/
def _resolveConds (opts : MllyOpts) : List String :=
  jsSetList (opts.conditions.getD DEFAULT_CONDITIONS)

/-- The base URL actually used (line 60):
`opts.url ? normalizeid(opts.url) : DEFAULT_URL` (`""` is falsy). -/
def _resolveBaseURL (h : Host) (opts : MllyOpts) : String :=
  match opts.url with
  | some u => if u = "" then h.cwdURL else normalizeid h u
  | none => h.cwdURL

/-- Inner fallback loop of `_resolve` (lines 68-71): for each extension, retry
the host resolution on `id + pfx + ext`; break at the first success. -/
def _fallbackExts (h : Host) (id pfx url : String) (conds : List String) :
    List String → Except JsError (Option String)
  | [] => .ok none
  | ext :: rest =>
    match _tryModuleResolve h (id ++ pfx ++ ext) url conds with
    | .error e => .error e
    | .ok (some r) => .ok (some r)
    | .ok none => _fallbackExts h id pfx url conds rest

/-- Outer fallback loop of `_resolve` (lines 67-73): the two prefixes `""` and
`"/index"` in order; break at the first success. -/
def _fallbackPrefixes (h : Host) (id url : String) (conds exts : List String) :
    List String → Except JsError (Option String)
  | [] => .ok none
  | pfx :: rest =>
    match _fallbackExts h id pfx url conds exts with
    | .error e => .error e
    | .ok (some r) => .ok (some r)
    | .ok none => _fallbackPrefixes h id url conds exts rest

/-- The `ERR_MODULE_NOT_FOUND` error built at lines 78-79. -/
def _notFoundError (id url : String) : JsError :=
  { message := "Cannot find module " ++ id ++ " imported from " ++ url
    code := some "ERR_MODULE_NOT_FOUND"
    stack := "" }

/-- Final canonicalization of `_resolve` (lines 84-85):
`pathToFileURL(realpathSync(fileURLToPath(resolved))).toString()`. -/
def _finalizeResolved (h : Host) (resolved : String) : Except JsError String := do
  let p ← fileURLToPath h resolved
  let real ← h.realpathSync p
  return h.pathToFileURL real

/-- Function `_resolve` (lines 45-86): protocol short-circuit, builtin short-circuit,
primary host resolution, extension/index fallback loops, not-found error,
real-path canonicalization. -/
def _resolve (h : Host) (id : String) (opts : MllyOpts) : Except JsError String :=
  if strContainsAny id RESOLVE_PROTOCOLS then .ok id
  else if h.builtinModules.contains id then .ok ("node:" ++ id)
  else
    let conds := _resolveConds opts
    let url := _resolveBaseURL h opts
    match _tryModuleResolve h id url conds with
    | .error e => .error e
    | .ok (some r) => _finalizeResolved h r
    | .ok none =>
      match _fallbackPrefixes h id url conds (opts.extensions.getD DEFAULT_EXTENSIONS)
          ["", "/index"] with
      | .error e => .error e
      | .ok (some r) => _finalizeResolved h r
      | .ok none => .error (_notFoundError id url)

/-- Function `resolveSync` (lines 88-90). -/
def resolveSync (h : Host) (id : String) (opts : MllyOpts) : Except JsError String :=
  _resolve h id opts

/-- Function `_perr` (lines 255-260): wrap the failure in `new Error(_err)` — whose
message is the string conversion `"Error: " + _err.message` — copying the
`code` property; `captureStackTrace` resets the stack. -/
def _perr (e : JsError) : JsError :=
  { message := "Error: " ++ e.message, code := e.code, stack := "" }

/-- Function `_pcall` (lines 247-253): run the synchronous function; a fulfilled value
passes through, any failure (thrown or rejected) becomes a rejection carrying
`_perr` of the original error.  The model is total, reflecting that `_pcall`
always returns a promise and never throws synchronously. -/
def _pcall (f : α → Except JsError β) (a : α) : Except JsError β :=
  match f a with
  | .ok v => .ok v
  | .error e => .error (_perr e)

/-- Function `resolve` (lines 92-94): the promise-returning shape of `resolveSync`. -/
def resolve (h : Host) (id : String) (opts : MllyOpts) : Except JsError String :=
  _pcall (fun a => resolveSync h a.1 a.2) (id, opts)

/-- Function `resolvePathSync` (lines 96-98). -/
def resolvePathSync (h : Host) (id : String) (opts : MllyOpts) : Except JsError String := do
  let u ← resolveSync h id opts
  fileURLToPath h u

/-- Function `resolvePath` (lines 100-102). -/
def resolvePath (h : Host) (id : String) (opts : MllyOpts) : Except JsError String :=
  _pcall (fun a => resolvePathSync h a.1 a.2) (id, opts)

-- ## Dynamically built JS regular expressions (used at lines 124, 140, 163)
--
-- The source interpolates raw data into `new RegExp(...)` without escaping.
-- The engine below covers the regex constructs of the fragment it is applied
-- to: every non-special character is a literal, `.` is the any-character
-- wildcard, and `+` makes the preceding literal one-or-more (greedy, with
-- backtracking).  The remaining JS metacharacters (`?`, `*`, `(`, `)`, `|`,
-- brackets, braces, `^`, `$`, `\`) are compiled as literals, which is NOT
-- what `new RegExp` does with them, so the model is faithful only for
-- pattern sources that contain no such character; every theorem about
-- patterns built from non-constant data restricts to that domain through an
-- explicit hypothesis (membership in `JS_REGEX_METACHARS`), and the data
-- URL patterns, whose alphabet only reaches `+`, satisfy it by construction.

/-- The characters that are special in a JavaScript regular expression.  The
engine models `.` and `+` and treats the rest as literals, so hypotheses
exclude this whole set from dynamically interpolated pattern text. -/
def JS_REGEX_METACHARS : List Char :=
  ['.', '+', '?', '*', '(', ')', '|', '[', ']', '\x7b', '\x7d', '^', '$', '\\']

/-- One compiled regex atom. -/
inductive RAtom where
  | lit (c : Char)
  | anyChar
  | plus (c : Char)
deriving DecidableEq

/-- One step of pattern compilation: `.` becomes the wildcard, `+` turns the
preceding literal into a one-or-more repetition, everything else is a
literal (see the fragment note above: this is faithful to `new RegExp` only
when the data part of the pattern avoids `JS_REGEX_METACHARS` or reaches at
most `.` and `+`). -/
def compileStep (acc : List RAtom) (c : Char) : List RAtom :=
  if c = '.' then acc ++ [RAtom.anyChar]
  else if c = '+' then
    match acc.getLast? with
    | some (RAtom.lit d) => acc.dropLast ++ [RAtom.plus d]
    | _ => acc ++ [RAtom.lit '+']
  else acc ++ [RAtom.lit c]

/-- Compile the characters of a dynamically built pattern. -/
def compilePattern (s : List Char) : List RAtom :=
  s.foldl compileStep []

/-- Match a compiled pattern against a prefix of the text, returning the
number of characters consumed.  `plus` is greedy and backtracks: it first
tries to extend the repetition, then falls back to matching the rest of the
pattern, exactly as the JS backtracking engine does. -/
def matchAtoms : List RAtom → List Char → Option Nat
  | [], _ => some 0
  | RAtom.lit _ :: _, [] => none
  | RAtom.lit c :: ps, d :: ds =>
    if d = c then (matchAtoms ps ds).map (· + 1) else none
  | RAtom.anyChar :: _, [] => none
  | RAtom.anyChar :: ps, _ :: ds => (matchAtoms ps ds).map (· + 1)
  | RAtom.plus _ :: _, [] => none
  | RAtom.plus c :: ps, d :: ds =>
    if d = c then
      match matchAtoms (RAtom.plus c :: ps) ds with
      | some n => some (n + 1)
      | none => (matchAtoms ps ds).map (· + 1)
    else none

/-- Try the alternatives of a pattern in order (JS alternation preference). -/
def tryAlts (alts : List (List RAtom)) (s : List Char) : Option Nat :=
  alts.findSome? (fun a => matchAtoms a s)

/-- Left-to-right global-replace scan: at each position try the alternation;
on a (non-empty) match, emit the replacement computed from the matched text,
the original text before the match and the original text after it, and
continue after the match; otherwise keep the character and move on.  `pre`
accumulates the original characters already scanned (for the before-match
argument), and the fuel is initialized to the text length, which every step
strictly decreases. -/
def replaceScan (alts : List (List RAtom))
    (repl : String → String → String → String) :
    Nat → List Char → List Char → List Char
  | _, _, [] => []
  | 0, _, s => s
  | fuel + 1, pre, d :: ds =>
    match tryAlts alts (d :: ds) with
    | some (n + 1) =>
      (repl (String.mk (d :: ds.take n)) (String.mk pre) (String.mk (ds.drop n))).data ++
        replaceScan alts repl fuel (pre ++ d :: ds.take n) (ds.drop n)
    | _ => d :: replaceScan alts repl fuel (pre ++ [d]) ds

/-- Model of JS `text.replace(new RegExp(alternation, 'g'), repl)` where
`repl` receives the matched text, the original text before the match and the
original text after the match (a replacement callback only uses the first). -/
def jsRegexReplaceAll (alts : List (List RAtom))
    (repl : String → String → String → String) (s : String) : String :=
  String.mk (replaceScan alts repl s.data.length [] s.data)

/-- The backquote character (avoids a literal backquote in the source). -/
def backquoteChar : Char := Char.ofNat 96

/-- The single-quote character. -/
def singleQuoteChar : Char := Char.ofNat 39

/-- JS processing of `$`-patterns in a replacement *string*: `$$` emits `$`,
`$&` emits the matched text, a dollar followed by a backquote emits the
original text before the match, `$` followed by a single quote emits the
original text after the match; any other `$` sequence stays literal (the
patterns built by this code contain no capture groups, so `$n` has no group
to refer to and remains literal). -/
def jsReplTemplate : List Char → List Char → List Char → List Char → List Char
  | [], _, _, _ => []
  | '$' :: d :: rest, matched, before, after =>
    if d = '$' then '$' :: jsReplTemplate rest matched before after
    else if d = '&' then matched ++ jsReplTemplate rest matched before after
    else if d = backquoteChar then before ++ jsReplTemplate rest matched before after
    else if d = singleQuoteChar then after ++ jsReplTemplate rest matched before after
    else '$' :: jsReplTemplate (d :: rest) matched before after
  | c :: rest, matched, before, after => c :: jsReplTemplate rest matched before after

/-- Model of JS `text.replace(new RegExp(alternation, 'g'), template)` where
the replacement is a *string*, processed through the `$`-patterns of
`jsReplTemplate` at every match. -/
def jsRegexReplaceStr (alts : List (List RAtom)) (template : String)
    (s : String) : String :=
  jsRegexReplaceAll alts
    (fun matched before after =>
      String.mk (jsReplTemplate template.data matched.data before.data after.data)) s

/-- Verbatim literal replacement: every occurrence of the literal string
`pat` is replaced by the string `repl` inserted verbatim.  This is the
substitution behavior the specification describes; it coincides with the JS
string replace exactly when `repl` contains no `$` (theorem
`jsReplTemplate_no_dollar`). -/
def jsLitReplaceAll (pat repl s : String) : String :=
  jsRegexReplaceAll [pat.data.map RAtom.lit] (fun _ _ _ => repl) s

-- ## Data URLs (source lines 238-241)

/-- UTF-8 encoding of one character (what `Buffer.from(code)` does). -/
def utf8Bytes (c : Char) : List Nat :=
  let n := c.toNat
  if n < 128 then [n]
  else if n < 2048 then [192 + n / 64, 128 + n % 64]
  else if n < 65536 then [224 + n / 4096, 128 + (n / 64) % 64, 128 + n % 64]
  else [240 + n / 262144, 128 + (n / 4096) % 64, 128 + (n / 64) % 64, 128 + n % 64]

/-- UTF-8 encoding of a string as a byte list. -/
def utf8Encode (s : String) : List Nat :=
  (s.data.map utf8Bytes).flatten

/-- The standard base64 alphabet. -/
def B64_ALPHABET : List Char :=
  "ABCDEFGHIJKLMNOPQRSTUVWXYZabcdefghijklmnopqrstuvwxyz0123456789+/".data

/-- The base64 digit for a 6-bit value. -/
def b64Char (n : Nat) : Char :=
  B64_ALPHABET.getD n 'A'

/-- Standard base64 of a byte list, processed in 3-byte groups with `=`
padding (what `Buffer.prototype.toString('base64')` produces). -/
def base64Chunks : List Nat → List Char
  | [] => []
  | [b1] => [b64Char (b1 / 4), b64Char (b1 % 4 * 16), '=', '=']
  | [b1, b2] => [b64Char (b1 / 4), b64Char (b1 % 4 * 16 + b2 / 16), b64Char (b2 % 16 * 4), '=']
  | b1 :: b2 :: b3 :: rest =>
    b64Char (b1 / 4) :: b64Char (b1 % 4 * 16 + b2 / 16) ::
      b64Char (b2 % 16 * 4 + b3 / 64) :: b64Char (b3 % 64) :: base64Chunks rest

/-- Base64 of a byte list as a string. -/
def base64Encode (bs : List Nat) : String :=
  String.mk (base64Chunks bs)

/-- Function `toDataURL` (lines 238-241): base64-encode the code into an inline
`data:text/javascript` URL. -/
def toDataURL (code : String) : String :=
  "data:text/javascript;base64," ++ base64Encode (utf8Encode code)

-- ## Loading and evaluation (source lines 112-165, 233-236)

/-- Function `loadURL` (lines 233-236): read the file behind a location. -/
def loadURL (h : Host) (url : String) : Except JsError String := do
  let p ← fileURLToPath h url
  h.readFile p

/-- Resolution of the unique specifiers of `resolveImports` into the
`resolved` map (lines 153-161), processed in list order (the `Promise.all`
completes with the same mapping regardless of completion order).  A resolved
location ending in `.json` is loaded and inlined as a data URL; there the
source calls `transformModule(code, { url })` with a `url` ending in `.json`,
which takes that function's JSON early-return branch (line 131-133) and
produces `'export default ' + code`; that branch is inlined here to keep the
definitions non-recursive. -/
def _resolveImportsMap (h : Host) (opts : MllyOpts) :
    List String → Except JsError (List (String × String))
  | [] => .ok []
  | id :: rest => do
    let url ← resolve h id opts
    let url ←
      if strEndsWith url ".json" then do
        let c ← loadURL h url
        pure (toDataURL ("export default " ++ c))
      else
        pure url
    let restMap ← _resolveImportsMap h opts rest
    pure ((id, url) :: restMap)

/-- Function `resolveImports` (lines 146-165).  The import-specifier extraction regex
`ESM_IMPORT_RE` (line 112, a lookbehind-based scan over the raw text) is an
external parameter `extractImports` here; everything after the extraction —
deduplication, per-specifier resolution, the combined unescaped alternation
`new RegExp(uniqueImports.map(i => '(' + i + ')').join('|'), 'g')` and the
single substitution pass whose callback returns `resolved.get(id)` (the string
`"undefined"` when the matched text is not a key) — is embedded directly. -/
def resolveImports (h : Host) (extractImports : String → List String)
    (code : String) (opts : MllyOpts) : Except JsError String := do
  let imports := extractImports code
  if imports.length = 0 then
    return code
  let uniqueImports := jsSetList imports
  let resolved ← _resolveImportsMap h opts uniqueImports
  return jsRegexReplaceAll (uniqueImports.map (fun i => compilePattern i.data))
    (fun matched _ _ => (resolved.lookup matched).getD "undefined") code

/-- Modelled from the spec: the substitution pass of §4.3, which promises that
"specifiers are matched as exact literal substrings" and replaced verbatim.
Identical to `resolveImports` except that each unique specifier is matched as
a plain literal (no character of the specifier is a metacharacter). -/
def resolveImportsSpec (h : Host) (extractImports : String → List String)
    (code : String) (opts : MllyOpts) : Except JsError String := do
  let imports := extractImports code
  if imports.length = 0 then
    return code
  let uniqueImports := jsSetList imports
  let resolved ← _resolveImportsMap h opts uniqueImports
  return jsRegexReplaceAll (uniqueImports.map (fun i => i.data.map RAtom.lit))
    (fun matched _ _ => (resolved.lookup matched).getD "undefined") code

/-- Function `transformModule` (lines 129-144).  The parameter has no default value in
the source, so calling it with the options omitted (`opts = none`) evaluates
`opts.url` on `undefined` and fails with a `TypeError`.  Otherwise: a `.json`
location short-circuits to `'export default ' + code`; else imports are
rewritten and, when a `url` is supplied, every occurrence of the literal text
`import.meta.url` is replaced by the quoted url. -/
def transformModule (h : Host) (extractImports : String → List String)
    (code : String) (opts : Option MllyOpts) : Except JsError String := do
  match opts with
  | none =>
    .error { message := "Cannot read properties of undefined (reading 'url')"
             code := none, stack := "" }
  | some o =>
    if jsOptTruthy o.url && strEndsWith (o.url.getD "") ".json" then
      return "export default " ++ code
    else
      let code2 ← resolveImports h extractImports code o
      match o.url with
      | some u =>
        if u = "" then return code2
        else
          return jsRegexReplaceStr ["import.meta.url".data.map RAtom.lit]
            ("'" ++ u ++ "'") code2
      | none => return code2

/-- Expression `opts.url || '_mlly_eval_.mjs'` (line 124). -/
def _evalFallbackURL (o : MllyOpts) : String :=
  match o.url with
  | some u => if u = "" then "_mlly_eval_.mjs" else u
  | none => "_mlly_eval_.mjs"

/-- Function `evalModule` (lines 120-127): transform, encode as a data URL, execute; on
execution failure rewrite the failure's stack through
`new RegExp(dataURL, 'g')` — the data URL interpolated unescaped — replacing
matches by `opts.url || '_mlly_eval_.mjs'`, and re-throw the same error. -/
def evalModule (h : Host) (extractImports : String → List String)
    (code : String) (opts : Option MllyOpts) : Except JsError Namespace :=
  let o := opts.getD {}
  match transformModule h extractImports code (some o) with
  | .error e => .error e
  | .ok transformed =>
    match h.dynImport (toDataURL transformed) with
    | .ok ns => .ok ns
    | .error err =>
      .error { message := err.message, code := err.code
               stack := jsRegexReplaceStr [compilePattern (toDataURL transformed).data]
                 (_evalFallbackURL o) err.stack }

/-- Function `loadModule` (lines 114-118). -/
def loadModule (h : Host) (extractImports : String → List String)
    (id : String) (opts : Option MllyOpts) : Except JsError Namespace := do
  let o := opts.getD {}
  let url ← resolve h id o
  let code ← loadURL h url
  evalModule h extractImports code (some { o with url := some url })

-- ## Concrete hosts used to instantiate the theorems

/-- A host whose resolution algorithm is described by a partial map `f`:
specifiers outside the map fail with `ERR_MODULE_NOT_FOUND`; real paths are
identities and `pathToFileURL`/node's `fileURLToPath` add and strip the
`file://` marker. -/
def hostF (f : String → Option String) : Host :=
  { builtinModules := ["fs", "path"]
    cwdURL := "file:///cwd"
    moduleResolve := fun s _ _ =>
      match f s with
      | some r => .ok r
      | none => .error { message := "nf", code := some "ERR_MODULE_NOT_FOUND", stack := "" }
    realpathSync := fun p => .ok p
    pathToFileURL := fun p => "file://" ++ p
    nodeFileURLToPath := fun u => .ok (u.drop 7)
    dynImport := fun _ => .ok "ns"
    readFile := fun _ => .ok "" }

/-- A host whose resolution algorithm always fails with the given error. -/
def hostThrow (e : JsError) : Host :=
  { hostF (fun _ => none) with moduleResolve := fun _ _ _ => .error e }

/-- A host whose dynamic `import` always fails with message `boom` and the
given stack trace. -/
def evalHost (st : String) : Host :=
  { hostF (fun _ => none) with
    dynImport := fun _ => .error { message := "boom", code := none, stack := st } }

/-- A host resolution map that resolves exactly `./x.json` and
`./x/index.js` — the configuration from §8 of the specification. -/
def fallbackMapX : String → Option String := fun s =>
  if s = "./x.json" then some "file:///x.json"
  else if s = "./x/index.js" then some "file:///x/index.js"
  else none

-- ## Helper lemmas

/-- A prefix occurrence is in particular a substring occurrence. -/
theorem charsStartWith_charsHaveSub {s p : List Char}
    (h : charsStartWith s p = true) : charsHaveSub s p = true := by
  cases s with
  | nil =>
    cases p with
    | nil => rfl
    | cons c cs => simp [charsStartWith] at h
  | cons c cs => simp [charsHaveSub, h]

/-- JS `startsWith` implies the unanchored substring test. -/
theorem strStartsWith_strContains {s p : String}
    (h : strStartsWith s p = true) : strContains s p = true :=
  charsStartWith_charsHaveSub h

/-- A string ending in `.json` is nonempty. -/
theorem strEndsWith_json_ne_empty {u : String}
    (h : strEndsWith u ".json" = true) : u ≠ "" := by
  intro hu
  subst hu
  exact absurd h (by decide)

/-- On a `hostF` host, `_tryModuleResolve` returns exactly the map's value:
hits succeed, misses are soft (the error code is in `NOT_FOUND_ERRORS`). -/
theorem tryModuleResolve_hostF (f : String → Option String) (s u : String)
    (c : List String) : _tryModuleResolve (hostF f) s u c = .ok (f s) := by
  cases hfs : f s <;> simp [_tryModuleResolve, hostF, hfs, NOT_FOUND_ERRORS]

-- ## Claim C5

/-- C5: for every source text and every options value whose `url` ends in
`.json`, `transformModule` returns exactly `"export default "` concatenated
with the original text, with no import rewriting (the host and the extraction
are universally quantified and unused) and no `import.meta.url` substitution
applied. -/
theorem transformModule_json_early_return (h : Host) (ex : String → List String)
    (code : String) (o : MllyOpts) (u : String)
    (hu : o.url = some u) (hj : strEndsWith u ".json" = true) :
    transformModule h ex code (some o) = .ok ("export default " ++ code) := by
  have hne : u ≠ "" := strEndsWith_json_ne_empty hj
  simp [transformModule, hu, jsOptTruthy, hne, hj, pure, Except.pure]

/-- Witness for C5 at a concrete input. -/
theorem transformModule_json_early_return_witness :
    transformModule (hostF (fun _ => none)) (fun _ => ["./a"]) "let a = 1"
        (some { url := some "file:///x.json" }) = .ok "export default let a = 1" :=
  transformModule_json_early_return (hostF (fun _ => none)) (fun _ => ["./a"])
    "let a = 1" { url := some "file:///x.json" } "file:///x.json" rfl (by decide)

-- ## Claim C9

/-- C9: calling `transformModule` with the options argument omitted does not
succeed — the code reads `opts.url` on `undefined` and fails with a
`TypeError` for every host and source text, contradicting the specified
optional-options signature `transformModule(sourceText, options?)`. -/
theorem transformModule_missing_opts_type_error (h : Host)
    (ex : String → List String) (code : String) :
    transformModule h ex code none =
      .error { message := "Cannot read properties of undefined (reading 'url')"
               code := none, stack := "" } := rfl

-- ## Claim C6

/-- C6: a specifier that starts with a recognized protocol qualifier
(`node:`/`data:`/`http:`/`https:`) is returned byte-for-byte unchanged by
`resolveSync`, for every host and every options value — so host resolution,
fallback search and real-path canonicalization are all bypassed. -/
theorem resolveSync_protocol_qualified_unchanged (h : Host) (id : String)
    (opts : MllyOpts)
    (hq : strStartsWith id "node:" = true ∨ strStartsWith id "data:" = true ∨
          strStartsWith id "http:" = true ∨ strStartsWith id "https:" = true) :
    resolveSync h id opts = .ok id := by
  have hc : strContainsAny id RESOLVE_PROTOCOLS = true := by
    simp only [strContainsAny, RESOLVE_PROTOCOLS, List.any_cons, List.any_nil,
      Bool.or_eq_true, Bool.or_eq_false_iff]
    rcases hq with h1 | h1 | h1 | h1
    · exact Or.inl (strStartsWith_strContains h1)
    · exact Or.inr (Or.inl (strStartsWith_strContains h1))
    · exact Or.inr (Or.inr (Or.inl (strStartsWith_strContains h1)))
    · exact Or.inr (Or.inr (Or.inr (Or.inl (strStartsWith_strContains h1))))
  simp [resolveSync, _resolve, hc]

/-- Witness for C6: `node:fs` is returned unchanged even though the host
could resolve it to something else. -/
theorem resolveSync_protocol_qualified_unchanged_witness :
    resolveSync (hostF (fun _ => some "file:///y.mjs")) "node:fs" {} = .ok "node:fs" :=
  resolveSync_protocol_qualified_unchanged (hostF (fun _ => some "file:///y.mjs"))
    "node:fs" {} (Or.inl (by decide))

-- ## Claim C10

/-- C10: the protocol test of `_resolve` is an unanchored pattern match, so a
specifier containing `node:`, `data:`, `http:` or `https:` anywhere as a
substring — not only as a leading qualifier — is returned unchanged by
`resolveSync` and resolution is bypassed entirely. -/
theorem resolveSync_unanchored_protocol_match (h : Host) (id : String)
    (opts : MllyOpts)
    (hq : strContains id "node:" = true ∨ strContains id "data:" = true ∨
          strContains id "http:" = true ∨ strContains id "https:" = true) :
    resolveSync h id opts = .ok id := by
  have hc : strContainsAny id RESOLVE_PROTOCOLS = true := by
    simp only [strContainsAny, RESOLVE_PROTOCOLS, List.any_cons, List.any_nil,
      Bool.or_eq_true]
    tauto
  simp [resolveSync, _resolve, hc]

/-- Witness for C10: the relative specifier `./a-node:b` is returned as-is
even though the host would resolve it against the base location. -/
theorem resolveSync_unanchored_protocol_match_witness :
    resolveSync (hostF (fun _ => some "file:///y.mjs")) "./a-node:b" {} =
      .ok "./a-node:b" :=
  resolveSync_unanchored_protocol_match (hostF (fun _ => some "file:///y.mjs"))
    "./a-node:b" {} (Or.inl (by decide))

-- ## Claim C4

/-- C4: the asynchronous call shapes `resolve` and `resolvePath` never raise
synchronously (they are total functions into settled-promise results): a
fulfilled synchronous result passes through, and every failure of the
underlying synchronous form manifests as a rejection carrying an error whose
message wraps the original failure (`"Error: " ++` original message) and
whose `code` classification tag equals the original error's code. -/
theorem resolve_async_error_wrapping (h : Host) (id : String) (opts : MllyOpts) :
    (∀ v, resolveSync h id opts = .ok v → resolve h id opts = .ok v) ∧
    (∀ e, resolveSync h id opts = .error e →
      resolve h id opts =
        .error { message := "Error: " ++ e.message, code := e.code, stack := "" }) ∧
    (∀ v, resolvePathSync h id opts = .ok v → resolvePath h id opts = .ok v) ∧
    (∀ e, resolvePathSync h id opts = .error e →
      resolvePath h id opts =
        .error { message := "Error: " ++ e.message, code := e.code, stack := "" }) := by
  refine ⟨?_, ?_, ?_, ?_⟩ <;> intro x hx <;>
    simp [resolve, resolvePath, _pcall, _perr, hx]

/-- Witness for C4: a failing resolution surfaces as a wrapped rejection with
the `code` tag preserved. -/
theorem resolve_async_error_wrapping_witness :
    resolve (hostF (fun _ => none)) "./m" {} =
      .error { message := "Error: Cannot find module ./m imported from file:///cwd"
               code := some "ERR_MODULE_NOT_FOUND", stack := "" } :=
  (resolve_async_error_wrapping (hostF (fun _ => none)) "./m" {}).2.1
    { message := "Cannot find module ./m imported from file:///cwd"
      code := some "ERR_MODULE_NOT_FOUND", stack := "" } rfl

-- ## Claim C7

/-- C7 counterexample: for the builtin module name `fs`, the path-form
conversion `fileURLToPath` does not render the builtin protocol: it returns
`"fs"` unchanged, not `"node:fs"` as the claim states (the function has no
builtin-module branch at all). -/
theorem fileURLToPath_builtin_counterexample :
    fileURLToPath (hostF (fun _ => none)) "fs" = .ok "fs" ∧
    ("fs" : String) ≠ "node:fs" :=
  ⟨rfl, by decide⟩

/-- C7 as amended: for a builtin module name (one containing no protocol
marker and not starting with `file://`), the URL-form conversion
`normalizeid` renders it with the builtin protocol `node:`, while the
path-form conversion `fileURLToPath` returns the bare name itself (only
slash-normalized), without the builtin protocol. -/
theorem normalizeid_builtin_fileURLToPath_bare (h : Host) (nm : String)
    (hb : h.builtinModules.contains nm = true)
    (hp : strContainsAny nm NORMALIZE_PROTOCOLS = false)
    (hf : strStartsWith nm "file://" = false) :
    normalizeid h nm = "node:" ++ nm ∧
    fileURLToPath h nm = .ok (normalizeSlash nm) := by
  have hb' : nm ∈ h.builtinModules := by simpa using hb
  constructor
  · simp [normalizeid, hp, hb']
  · simp [fileURLToPath, hf]

/-- Witness for the amended C7 at the builtin name `fs`. -/
theorem normalizeid_builtin_fileURLToPath_bare_witness :
    normalizeid (hostF (fun _ => none)) "fs" = "node:" ++ "fs" ∧
    fileURLToPath (hostF (fun _ => none)) "fs" = .ok (normalizeSlash "fs") :=
  normalizeid_builtin_fileURLToPath_bare (hostF (fun _ => none)) "fs"
    (by decide) (by decide) (by decide)

-- ## Claim C1

/-- Searching `findSome?` over an appended list: the left part is searched first. -/
theorem findSome_append (f : α → Option β) (l₁ l₂ : List α) :
    (l₁ ++ l₂).findSome? f =
      match l₁.findSome? f with
      | some v => some v
      | none => l₂.findSome? f := by
  induction l₁ with
  | nil => simp [List.findSome?]
  | cons a l ih =>
    cases hfa : f a <;> simp [List.findSome?_cons, hfa, ih]

/-- When every host call behaves as the pure map `f` (all misses soft), the
inner fallback loop returns the first extension candidate `f` resolves. -/
theorem fallbackExts_eq_findSome (h : Host) (f : String → Option String)
    (id pfx url : String) (conds : List String)
    (hf : ∀ s, _tryModuleResolve h s url conds = .ok (f s)) :
    ∀ exts, _fallbackExts h id pfx url conds exts =
      .ok ((exts.map (fun e => id ++ pfx ++ e)).findSome? f) := by
  intro exts
  induction exts with
  | nil => rfl
  | cons e rest ih =>
    simp only [_fallbackExts, hf (id ++ pfx ++ e), List.map_cons, List.findSome?_cons]
    cases f (id ++ pfx ++ e) <;> simp [ih]

/-- When every host call behaves as the pure map `f`, the nested fallback
loops try the prefixes in order, each over all extensions, and return the
first candidate of the flattened candidate list that `f` resolves. -/
theorem fallbackPrefixes_eq_findSome (h : Host) (f : String → Option String)
    (id url : String) (conds exts : List String)
    (hf : ∀ s, _tryModuleResolve h s url conds = .ok (f s)) :
    ∀ pfxs, _fallbackPrefixes h id url conds exts pfxs =
      .ok ((pfxs.map (fun p => exts.map (fun e => id ++ p ++ e))).flatten.findSome? f) := by
  intro pfxs
  induction pfxs with
  | nil => rfl
  | cons p rest ih =>
    simp only [_fallbackPrefixes, fallbackExts_eq_findSome h f id p url conds hf exts,
      List.map_cons, List.flatten_cons, findSome_append]
    cases (exts.map (fun e => id ++ p ++ e)).findSome? f <;> simp [ih]

/-- C1: for a specifier without protocol marker and outside the builtin set,
with the default extension list, when the primary host resolution is a soft
miss and every host call behaves as the pure map `f` (all failures being soft
misses), `resolveSync` performs the fallback search over exactly the
candidates `id+'.mjs'`, `id+'.cjs'`, `id+'.js'`, `id+'.json'`,
`id+'/index.mjs'`, `id+'/index.cjs'`, `id+'/index.js'`, `id+'/index.json'`,
in that order, stopping at the first candidate the host resolves (whose
canonicalization is returned); no `/index` candidate is attempted before all
direct-extension candidates have failed, and if all eight fail the result is
the module-not-found error. -/
theorem resolveSync_fallback_order (h : Host) (id : String) (opts : MllyOpts)
    (f : String → Option String)
    (hp : strContainsAny id RESOLVE_PROTOCOLS = false)
    (hb : h.builtinModules.contains id = false)
    (hext : opts.extensions = none)
    (hf : ∀ s, _tryModuleResolve h s (_resolveBaseURL h opts) (_resolveConds opts) =
      .ok (f s))
    (hmiss : f id = none) :
    resolveSync h id opts =
      match [id ++ ".mjs", id ++ ".cjs", id ++ ".js", id ++ ".json",
             id ++ "/index.mjs", id ++ "/index.cjs", id ++ "/index.js",
             id ++ "/index.json"].findSome? f with
      | some r => _finalizeResolved h r
      | none => .error (_notFoundError id (_resolveBaseURL h opts)) := by
  have hb' : ¬ id ∈ h.builtinModules := by simpa using hb
  have hfall := fallbackPrefixes_eq_findSome h f id (_resolveBaseURL h opts)
    (_resolveConds opts) DEFAULT_EXTENSIONS hf ["", "/index"]
  have hcand :
      ((["", "/index"].map
        (fun p => DEFAULT_EXTENSIONS.map (fun e => id ++ p ++ e))).flatten) =
      [id ++ ".mjs", id ++ ".cjs", id ++ ".js", id ++ ".json",
       id ++ "/index.mjs", id ++ "/index.cjs", id ++ "/index.js",
       id ++ "/index.json"] := by
    show [id ++ "" ++ ".mjs", id ++ "" ++ ".cjs", id ++ "" ++ ".js",
          id ++ "" ++ ".json", id ++ "/index" ++ ".mjs", id ++ "/index" ++ ".cjs",
          id ++ "/index" ++ ".js", id ++ "/index" ++ ".json"] = _
    simp only [String.append_empty, String.append_assoc]
    rfl
  rw [hcand] at hfall
  cases hres : ([id ++ ".mjs", id ++ ".cjs", id ++ ".js", id ++ ".json",
      id ++ "/index.mjs", id ++ "/index.cjs", id ++ "/index.js",
      id ++ "/index.json"].findSome? f) with
  | some r => simp [resolveSync, _resolve, hp, hb', hf id, hmiss, hext, hfall, hres]
  | none => simp [resolveSync, _resolve, hp, hb', hf id, hmiss, hext, hfall, hres]

/-- Witness for C1: with only `./x.json` and `./x/index.js` resolvable, the
fallback returns `./x.json` — the direct `.json` candidate is preferred over
the earlier-extension `/index` candidate. -/
theorem resolveSync_fallback_order_witness :
    resolveSync (hostF fallbackMapX) "./x" {} = .ok "file:///x.json" := by
  have h := resolveSync_fallback_order (hostF fallbackMapX) "./x" {} fallbackMapX
    (by decide) (by decide) rfl
    (fun s => tryModuleResolve_hostF fallbackMapX s _ _) (by decide)
  rw [h]
  rfl

-- ## Claim C3

/-- If every candidate is a soft miss, the inner fallback loop finds none. -/
theorem fallbackExts_all_none (h : Host) (id pfx url : String)
    (conds : List String)
    (hall : ∀ s, _tryModuleResolve h s url conds = .ok none) :
    ∀ exts, _fallbackExts h id pfx url conds exts = .ok none := by
  intro exts
  induction exts with
  | nil => rfl
  | cons e rest ih => simp [_fallbackExts, hall (id ++ pfx ++ e), ih]

/-- If every candidate is a soft miss, the outer fallback loop finds none. -/
theorem fallbackPrefixes_all_none (h : Host) (id url : String)
    (conds exts : List String)
    (hall : ∀ s, _tryModuleResolve h s url conds = .ok none) :
    ∀ pfxs, _fallbackPrefixes h id url conds exts pfxs = .ok none := by
  intro pfxs
  induction pfxs with
  | nil => rfl
  | cons p rest ih =>
    simp [_fallbackPrefixes, fallbackExts_all_none h id p url conds hall exts, ih]

/-- C3: for a specifier without protocol marker and outside the builtin set,
(1) when neither the primary host resolution nor any fallback candidate
resolves (every host call is a soft miss), `resolveSync` fails with the
module-not-found error — code `ERR_MODULE_NOT_FOUND`, message
`"Cannot find module <id> imported from <base>"` naming the original
specifier and the base location; and (2) a primary host-resolution failure
whose code is outside the not-found class (`ERR_MODULE_NOT_FOUND`,
`ERR_UNSUPPORTED_DIR_IMPORT`, `MODULE_NOT_FOUND`) is propagated unchanged,
with no fallback retry. -/
theorem resolveSync_not_found_and_propagation (h : Host) (id : String)
    (opts : MllyOpts)
    (hp : strContainsAny id RESOLVE_PROTOCOLS = false)
    (hb : h.builtinModules.contains id = false) :
    ((∀ s, _tryModuleResolve h s (_resolveBaseURL h opts) (_resolveConds opts) =
        .ok none) →
      resolveSync h id opts =
        .error (_notFoundError id (_resolveBaseURL h opts))) ∧
    (∀ e, h.moduleResolve id (_resolveBaseURL h opts) (_resolveConds opts) =
        .error e →
      (∀ c, e.code = some c → NOT_FOUND_ERRORS.contains c = false) →
      resolveSync h id opts = .error e) := by
  have hb' : ¬ id ∈ h.builtinModules := by simpa using hb
  constructor
  · intro hall
    simp [resolveSync, _resolve, hp, hb', hall id,
      fallbackPrefixes_all_none h id (_resolveBaseURL h opts) (_resolveConds opts)
        (opts.extensions.getD DEFAULT_EXTENSIONS) hall ["", "/index"]]
  · intro e he hcode
    have htry : _tryModuleResolve h id (_resolveBaseURL h opts) (_resolveConds opts) =
        .error e := by
      simp only [_tryModuleResolve, he]
      cases hc : e.code with
      | none => rfl
      | some c => exact if_neg (by simpa using hcode c hc)
    simp [resolveSync, _resolve, hp, hb', htry]

/-- Witness for C3: a host resolving nothing yields the not-found error with
the specifier and base location in the message; a host failing with a syntax
error propagates that error unchanged. -/
theorem resolveSync_not_found_and_propagation_witness :
    resolveSync (hostF (fun _ => none)) "./m" {} =
      .error { message := "Cannot find module ./m imported from file:///cwd"
               code := some "ERR_MODULE_NOT_FOUND", stack := "" } ∧
    resolveSync (hostThrow { message := "Unexpected token", code := some "ERR_SYNTAX", stack := "" })
        "./m" {} =
      .error { message := "Unexpected token", code := some "ERR_SYNTAX", stack := "" } :=
  ⟨(resolveSync_not_found_and_propagation (hostF (fun _ => none)) "./m" {}
      (by decide) (by decide)).1
    (fun s => tryModuleResolve_hostF (fun _ => none) s _ _),
   (resolveSync_not_found_and_propagation
      (hostThrow { message := "Unexpected token", code := some "ERR_SYNTAX", stack := "" })
      "./m" {} (by decide) (by decide)).2
    { message := "Unexpected token", code := some "ERR_SYNTAX", stack := "" }
    rfl (by decide)⟩

-- ## Claim C2

/-- Membership in the deduplicated list implies membership in the input. -/
theorem mem_jsSetFold (x : String) : ∀ (l acc : List String),
    x ∈ l.foldl (fun acc y => if acc.contains y then acc else acc ++ [y]) acc →
    x ∈ acc ∨ x ∈ l := by
  intro l
  induction l with
  | nil => exact fun acc hx => Or.inl hx
  | cons a t ih =>
    intro acc hx
    simp only [List.foldl_cons] at hx
    rcases ih _ hx with hacc | ht
    · by_cases hc : acc.contains a
      · rw [if_pos hc] at hacc
        exact Or.inl hacc
      · rw [if_neg hc] at hacc
        rcases List.mem_append.mp hacc with h1 | h1
        · exact Or.inl h1
        · simp only [List.mem_singleton] at h1
          exact Or.inr (h1 ▸ List.mem_cons_self a t)
    · exact Or.inr (List.mem_cons_of_mem a ht)

/-- Membership in `jsSetList l` implies membership in `l`. -/
theorem mem_jsSetList {x : String} {l : List String}
    (hx : x ∈ jsSetList l) : x ∈ l :=
  (mem_jsSetFold x l [] hx).resolve_left (by simp)

/-- Folding `compileStep` over metacharacter-free characters only appends
literal atoms. -/
theorem compileFold_no_meta : ∀ (l : List Char) (acc : List RAtom),
    (∀ c ∈ l, c ≠ '.' ∧ c ≠ '+') →
    l.foldl compileStep acc = acc ++ l.map RAtom.lit := by
  intro l
  induction l with
  | nil => intro acc _; simp
  | cons c t ih =>
    intro acc hl
    have hc := hl c (List.mem_cons_self c t)
    simp only [List.foldl_cons, List.map_cons]
    rw [show compileStep acc c = acc ++ [RAtom.lit c] by
      simp [compileStep, hc.1, hc.2]]
    rw [ih _ (fun d hd => hl d (List.mem_cons_of_mem c hd))]
    simp

/-- A pattern whose characters avoid the metacharacters `.` and `+` compiles
to the sequence of literal atoms: it matches only its own text. -/
theorem compilePattern_no_meta (l : List Char)
    (hl : ∀ c ∈ l, c ≠ '.' ∧ c ≠ '+') :
    compilePattern l = l.map RAtom.lit := by
  simpa [compilePattern] using compileFold_no_meta l [] hl

/-- The extraction function, host and source of the C2 counterexample: the
source imports `./a` and elsewhere contains the three-character text `x/a`;
the host resolves `./a` to `file:///a.mjs`. -/
def cexHost : Host :=
  hostF (fun s => if s = "./a" then some "file:///a.mjs" else none)

/-- The source text of the C2 counterexample. -/
def cexCode : String := "import \"./a\"\nlet s = \"x/a\""

/-- The extraction result for `cexCode` (what `ESM_IMPORT_RE` extracts from
it: the single specifier `./a`). -/
def cexExtract : String → List String := fun _ => ["./a"]

/-- C2 counterexample: the specifier `./a` is interpolated into the
substitution regex unescaped, so its `.` matches any character: the text
`x/a`, which equals no extracted specifier, is also replaced (by
`String(undefined)`, i.e. `"undefined"`, since it is not a key of the
resolution map).  The exact-literal substitution the claim describes
(`resolveImportsSpec`) leaves `x/a` alone, and the two outputs differ. -/
theorem resolveImports_literal_counterexample :
    resolveImports cexHost cexExtract cexCode {} =
      .ok "import \"file:///a.mjs\"\nlet s = \"undefined\"" ∧
    resolveImportsSpec cexHost cexExtract cexCode {} =
      .ok "import \"file:///a.mjs\"\nlet s = \"x/a\"" ∧
    ("import \"file:///a.mjs\"\nlet s = \"undefined\"" : String) ≠
      "import \"file:///a.mjs\"\nlet s = \"x/a\"" :=
  ⟨rfl, rfl, by decide⟩

/-- C2 as amended: when every extracted specifier is nonempty (as the four
extraction patterns, which all require at least one character, guarantee;
an empty regex pattern lies outside the modelled fragment)
and contains no JavaScript regex metacharacter (none of
`.  + ? * ( ) | [ ] braces ^ $ backslash`, the set `JS_REGEX_METACHARS`),
the single substitution pass of `resolveImports` matches each unique
specifier as an exact literal substring and coincides with the
specification's literal substitution `resolveImportsSpec`: a replacement
occurs at a position if and only if the text there equals one of the
distinct literal specifiers (leftmost match, no overlapping replacement).
In general the unescaped specifier text is interpreted by `new RegExp` as a
regex pattern, and a replacement can occur where the text equals no
specifier. -/
theorem resolveImports_metachar_free (h : Host) (ex : String → List String)
    (code : String) (opts : MllyOpts)
    (_hne : ∀ s ∈ ex code, s.data ≠ [])
    (hm : ∀ s ∈ ex code, ∀ c ∈ s.data, c ∉ JS_REGEX_METACHARS) :
    resolveImports h ex code opts = resolveImportsSpec h ex code opts := by
  have hm' : ∀ s ∈ ex code, ∀ c ∈ s.data, c ≠ '.' ∧ c ≠ '+' := by
    intro s hs c hc
    have h1 := hm s hs c hc
    constructor <;> intro hx <;> subst hx <;> exact h1 (by decide)
  unfold resolveImports resolveImportsSpec
  have hmap : (jsSetList (ex code)).map (fun i => compilePattern i.data) =
      (jsSetList (ex code)).map (fun i => i.data.map RAtom.lit) := by
    apply List.map_congr_left
    intro i hi
    exact compilePattern_no_meta i.data (fun c hc => hm' i (mem_jsSetList hi) c hc)
  simp only [hmap]

/-- Witness for the amended C2: a metacharacter-free specifier is replaced
exactly literally. -/
theorem resolveImports_metachar_free_witness :
    resolveImports (hostF (fun s => if s = "abc" then some "file:///abc.mjs" else none))
        (fun _ => ["abc"]) "import \"abc\"" {} =
      resolveImportsSpec (hostF (fun s => if s = "abc" then some "file:///abc.mjs" else none))
        (fun _ => ["abc"]) "import \"abc\"" {} :=
  resolveImports_metachar_free
    (hostF (fun s => if s = "abc" then some "file:///abc.mjs" else none))
    (fun _ => ["abc"]) "import \"abc\"" {} (by decide) (by decide)

-- ## Claim C8

/-- C8 counterexample: for the source `xx>` the base64 payload of the data
URL is `eHg+`, whose `+` is a regex metacharacter when the data URL is
interpolated unescaped into `new RegExp(dataURL, 'g')`.  The pattern then
matches `data:text/javascript;base64,eHg` (one `g`, no literal `+`), so the
occurrence of the data URL in the stack is not replaced by the logical
location as a whole: a stray `+` survives, and the resulting stack differs
from the full replacement the claim describes. -/
theorem evalModule_stack_rewrite_counterexample :
    evalModule (evalHost "at data:text/javascript;base64,eHg+:1:1") (fun _ => [])
        "xx>" (some { url := some "file:///app.mjs" }) =
      .error { message := "boom", code := none, stack := "at file:///app.mjs+:1:1" } ∧
    ("at file:///app.mjs+:1:1" : String) ≠ "at file:///app.mjs:1:1" :=
  ⟨rfl, by decide⟩

/-- A replacement template that contains no `$` is expanded verbatim. -/
theorem jsReplTemplate_no_dollar : ∀ (t m b a : List Char), '$' ∉ t →
    jsReplTemplate t m b a = t := by
  intro t
  induction t with
  | nil => intro m b a _; rfl
  | cons c rest ih =>
    intro m b a hnd
    have hc : c ≠ '$' := fun hx => hnd (hx ▸ List.mem_cons_self c rest)
    have hrest : '$' ∉ rest := fun hx => hnd (List.mem_cons_of_mem c hx)
    cases rest with
    | nil => simp [jsReplTemplate, hc]
    | cons d rest2 => simp [jsReplTemplate, hc, ih m b a hrest]

/-- C8 as amended: whenever the synthesized data URL contains no regex
metacharacter (no `.` and no `+` — its fixed prefix never does, and its
base64 alphabet can only contribute `+`) and the logical location being
substituted in (`opts.url`, or the placeholder `_mlly_eval_.mjs` when no url
was supplied) contains no `$` (which the `$`-patterns of a JS string
replacement would otherwise expand), a failing execution is re-signalled
with the same message and the same classification code, and with every
occurrence of the data URL in the failure's stack replaced, as an exact
literal substring, by that logical location. -/
theorem evalModule_stack_rewrite_literal (h : Host) (ex : String → List String)
    (code : String) (o : MllyOpts) (t : String) (e : JsError)
    (ht : transformModule h ex code (some o) = .ok t)
    (hmeta : ∀ c ∈ (toDataURL t).data, c ≠ '.' ∧ c ≠ '+')
    (hdollar : '$' ∉ (_evalFallbackURL o).data)
    (he : h.dynImport (toDataURL t) = .error e) :
    evalModule h ex code (some o) =
      .error { message := e.message, code := e.code
               stack := jsLitReplaceAll (toDataURL t) (_evalFallbackURL o) e.stack } := by
  have hrw := compilePattern_no_meta (toDataURL t).data hmeta
  have htempl : (fun (matched before after : String) =>
      String.mk (jsReplTemplate (_evalFallbackURL o).data matched.data
        before.data after.data)) =
      (fun (_ _ _ : String) => _evalFallbackURL o) := by
    funext matched before after
    rw [jsReplTemplate_no_dollar (_evalFallbackURL o).data matched.data
      before.data after.data hdollar]
  simp only [evalModule, Option.getD_some, ht, he, hrw, jsLitReplaceAll,
    jsRegexReplaceStr, htempl]

/-- Witness for the amended C8: for source `xx` (base64 `eHg=`, no
metacharacter) both occurrences of the data URL in the stack are replaced by
the supplied url, and message and code are preserved. -/
theorem evalModule_stack_rewrite_literal_witness :
    evalModule
        (evalHost "at data:text/javascript;base64,eHg=:1:1 at data:text/javascript;base64,eHg=:2:2")
        (fun _ => []) "xx" (some { url := some "file:///app.mjs" }) =
      .error { message := "boom", code := none
               stack := "at file:///app.mjs:1:1 at file:///app.mjs:2:2" } := by
  have h := evalModule_stack_rewrite_literal
    (evalHost "at data:text/javascript;base64,eHg=:1:1 at data:text/javascript;base64,eHg=:2:2")
    (fun _ => []) "xx" { url := some "file:///app.mjs" } "xx"
    { message := "boom", code := none
      stack := "at data:text/javascript;base64,eHg=:1:1 at data:text/javascript;base64,eHg=:2:2" }
    rfl (by decide) (by decide) rfl
  rw [h]
  rfl

end Mlly
